import Mathlib

/-!
Shallow embedding of the simulation core of the Untitled-Beach-Game
repository (src/player.py, src/states/game_state.py, src/states/menu.py,
src/npc.py, engine/camera.py), together with theorems settling the
specification claims about it.

Coordinates and velocities are modelled over the rationals: the source
uses pygame FRect / float vectors, and none of the claims is about
floating-point rounding.
-/

namespace UBG

/-- An axis-aligned rectangle, as pygame's Rect/FRect: position of the
top-left corner plus width and height. -/
structure Rect where
  x : ℚ
  y : ℚ
  w : ℚ
  h : ℚ
deriving DecidableEq

/-- pygame Rect.colliderect: true when the two rectangles overlap with
positive area on both axes (touching edges do not collide). -/
def Rect.collide (a b : Rect) : Bool :=
  decide (a.x < b.x + b.w ∧ b.x < a.x + a.w ∧ a.y < b.y + b.h ∧ b.y < a.y + a.h)

/-- pygame assignment rect.right = v (moves the rect, keeps its size). -/
def Rect.setRight (a : Rect) (v : ℚ) : Rect := { a with x := v - a.w }

/-- pygame assignment rect.left = v. -/
def Rect.setLeft (a : Rect) (v : ℚ) : Rect := { a with x := v }

/-- pygame assignment rect.top = v. -/
def Rect.setTop (a : Rect) (v : ℚ) : Rect := { a with y := v }

/-- pygame assignment rect.bottom = v. -/
def Rect.setBottom (a : Rect) (v : ℚ) : Rect := { a with y := v - a.h }

/-- The keys the simulation core reads (pygame.K_a, K_d, K_SPACE, K_e,
K_ESCAPE; anything else is irrelevant to the embedded code). -/
inductive PKey where
  | a
  | d
  | space
  | e
  | escape
  | otherKey
deriving DecidableEq

/-- A discrete input event as consumed from event_info["events"]. -/
inductive GEvent where
  | keyDown (k : PKey)
  | keyUp (k : PKey)
  | other
deriving DecidableEq

/-- event.type == pygame.KEYDOWN and event.key == pygame.K_SPACE. -/
def isSpaceDown : GEvent → Bool
  | GEvent.keyDown PKey.space => true
  | _ => false

/-- event.type == pygame.KEYDOWN and event.key == pygame.K_e. -/
def isEDown : GEvent → Bool
  | GEvent.keyDown PKey.e => true
  | _ => false

/-- The per-frame input snapshot event_info: delta time, the
continuous pressed-key state, and the discrete event list. -/
structure EventInfo where
  dt : ℚ
  keys : PKey → Bool
  events : List GEvent

/-- engine.enums.EntityStates (TALK is unused by the player). -/
inductive PState where
  | idle
  | walk
  | jump
  | talk
deriving DecidableEq

/-- The player's facing direction strings "left"/"right". -/
inductive Facing where
  | left
  | right
deriving DecidableEq

/-- The mutable state of src.player.Player that the simulation logic
touches: rect, velocity, jumping flag, derived animation state and
facing.  The numeric constants speed=4, gravity=3.5, jump_height=15 are
inlined where Player.move uses them. -/
structure PlayerState where
  rect : Rect
  velx : ℚ
  vely : ℚ
  jumping : Bool
  state : PState
  facing : Facing
deriving DecidableEq

/-- The event loop of Player.move: for each event, if it is a space
key-down and the player is not jumping, set jumping and apply the jump
impulse vel.y = -jump_height.  The third component records whether the
impulse branch executed at least once during this call. -/
def jumpLoop : List GEvent → Bool × ℚ × Bool → Bool × ℚ × Bool
  | [], p => p
  | ev :: evs, p =>
      jumpLoop evs (if isSpaceDown ev && !p.1 then (true, -15, true) else p)

/-- Player.move (src/player.py lines 48-76), returning the new player
state together with the flag recording whether a jump impulse was
applied during this call.  The state is rederived from IDLE, the
horizontal velocity is rebuilt from the pressed keys, gravity is
integrated into vel.y, then the event loop may apply a jump impulse,
and finally jumping forces the JUMP state. -/
def playerMoveI (info : EventInfo) (s : PlayerState) : PlayerState × Bool :=
  let walk : PState × Facing × ℚ :=
    if !(info.keys PKey.a && info.keys PKey.d) then
      if info.keys PKey.d then (PState.walk, Facing.right, 4)
      else if info.keys PKey.a then (PState.walk, Facing.left, -4)
      else (PState.idle, s.facing, 0)
    else (PState.idle, s.facing, 0)
  let vy := s.vely + 7/2 * info.dt
  let j := jumpLoop info.events (s.jumping, vy, false)
  ({ s with
      state := if j.1 then PState.jump else walk.1
      facing := walk.2.1
      velx := walk.2.2
      vely := j.2.1
      jumping := j.1 }, j.2.2)

/-- Player.move, state part only. -/
def playerMove (info : EventInfo) (s : PlayerState) : PlayerState :=
  (playerMoveI info s).1

/-- The vertical velocity right after the gravity integration step of
Player.move, i.e. the value the event loop sees when it processes the
first jump key-down of the call. -/
def velAfterGravity (s : PlayerState) (dt : ℚ) : ℚ :=
  s.vely + 7/2 * dt

/-- rect.x += vel.x * dt (first displacement of TileStage.collisions). -/
def shiftX (dt : ℚ) (e : PlayerState) : PlayerState :=
  { e with rect := { e.rect with x := e.rect.x + e.velx * dt } }

/-- rect.y += vel.y * dt (second displacement of TileStage.collisions). -/
def shiftY (dt : ℚ) (e : PlayerState) : PlayerState :=
  { e with rect := { e.rect with y := e.rect.y + e.vely * dt } }

/-- One iteration of the horizontal snapping loop of
TileStage.collisions: if the entity collides with the tile, snap the
right edge to the tile's left edge when moving rightward, or the left
edge to the tile's right edge when moving leftward. -/
def hStep (p : PlayerState) (t : Rect) : PlayerState :=
  if p.rect.collide t then
    if 0 < p.velx then { p with rect := p.rect.setRight t.x }
    else if p.velx < 0 then { p with rect := p.rect.setLeft (t.x + t.w) }
    else p
  else p

/-- One iteration of the vertical snapping loop of TileStage.collisions.
The Bool accumulator records whether a downward snap (the landing
branch, which clears jumping and zeroes vel.y) has occurred. -/
def vStep (p : PlayerState) (ds : Bool) (t : Rect) : PlayerState × Bool :=
  if p.rect.collide t then
    if 0 < p.vely then
      ({ p with rect := p.rect.setBottom t.y, jumping := false, vely := 0 }, true)
    else if p.vely < 0 then
      ({ p with rect := p.rect.setTop (t.y + t.h), vely := 0 }, ds)
    else (p, ds)
  else (p, ds)

/-- TileStage.collisions (src/states/game_state.py lines 93-124) over a
given list of neighbor tiles (the result of the 3-radius
get_neighboring_tiles query, taken here as a parameter): horizontal
displacement and snapping pass, then vertical displacement and snapping
pass, then the final mid-air-jump guard that marks the entity jumping
while it is falling.  The Bool result records whether a downward
(landing) snap occurred.  The final mid-air guard is split into
jumpGuard. -/
def jumpGuard (v : PlayerState × Bool) : PlayerState × Bool :=
  (if 0 < v.1.vely then { v.1 with jumping := true } else v.1, v.2)

def collisionsDS (tiles : List Rect) (dt : ℚ) (e : PlayerState) :
    PlayerState × Bool :=
  jumpGuard
    (tiles.foldl (fun pb t => vStep pb.1 pb.2 t)
      (shiftY dt (tiles.foldl hStep (shiftX dt e)), false))

/-- TileStage.collisions, entity part only. -/
def collisions (tiles : List Rect) (dt : ℚ) (e : PlayerState) : PlayerState :=
  (collisionsDS tiles dt e).1

/-- The inputs a single frame of the player pipeline consumes: the
queried neighbor tiles, the delta time, and the input snapshot. -/
structure FrameInput where
  tiles : List Rect
  dt : ℚ
  info : EventInfo

/-- One PlayerStage frame restricted to physics: TileStage.collisions on
the player followed by Player.move (src/states/game_state.py lines
164-171 call collisions before player.update, which calls move), folded
over a list of frames.  Returns the final state, the number of frames
in which a jump impulse was applied, and whether any frame performed a
downward landing snap. -/
def runFrames : List FrameInput → PlayerState → PlayerState × ℕ × Bool
  | [], s => (s, 0, false)
  | f :: fs, s =>
      let c := collisionsDS f.tiles f.dt s
      let m := playerMoveI f.info c.1
      let rest := runFrames fs m.1
      (rest.1, (if m.2 then 1 else 0) + rest.2.1, c.2 || rest.2.2)

/-- engine.camera.Camera: viewport size and scroll offset. -/
structure Camera where
  width : ℤ
  height : ℤ
  scrollx : ℚ
  scrolly : ℚ

/-- Camera.__init__(width, height): scroll starts at (0, -48). -/
def Camera.make (w h : ℤ) : Camera :=
  { width := w, height := h, scrollx := 0, scrolly := -48 }

/-- Camera.adjust_to (engine/camera.py lines 31-43).  Python floor
divisions: width // 2 on ints floors, height // 1.5 and the outer // 1
floor the rational values.  The vertical offset is clamped by
scroll.y = min(scroll.y, 48). -/
def Camera.adjustTo (c : Camera) (dt : ℚ) (tx ty : ℚ) : Camera :=
  let sx := c.scrollx + ((⌊tx - c.scrollx - ((Int.fdiv c.width 2 : ℤ) : ℚ)⌋ : ℤ) : ℚ)
  let sy := c.scrolly +
    ((⌊ty - c.scrolly - ((⌊(c.height : ℚ) / (3/2)⌋ : ℤ) : ℚ)⌋ : ℤ) : ℚ) * dt
  { c with scrollx := sx, scrolly := min sy 48 }

/-- Modelled from the spec: engine.utils.Expansion (not under src/), a
fade value with configurable speed and bounds that animates toward its
upper bound while the target condition holds and back toward its lower
bound otherwise. -/
structure Expansion where
  number : ℚ
  lowerBound : ℚ
  upperBound : ℚ
  speed : ℚ

/-- Modelled from the spec: Expansion.update moves the number by
speed * dt toward the upper bound when towards holds, else toward the
lower bound, clamped at the bounds. -/
def Expansion.update (ex : Expansion) (towards : Bool) (dt : ℚ) : Expansion :=
  if towards then { ex with number := min (ex.number + ex.speed * dt) ex.upperBound }
  else { ex with number := max (ex.number - ex.speed * dt) ex.lowerBound }

/-- The mutable state of src.npc.TalkingNPC that the dialogue logic
reads and writes.  A pre-rendered line surface is represented by the
source text it was rendered from (render_outline_text is deterministic
in its line argument); textSurf is the currently displayed one.  The
alpha expansion keeps the fixed bounds (0, 255) and speed 25 from the
constructor, so only its number is stored. -/
structure NpcTalk where
  rect : Rect
  lines : List String
  lineIndex : ℕ
  textSurf : String
  interacting : Bool
  talking : Bool
  alpha : ℚ
deriving DecidableEq

/-- TalkingNPC.render_text_default: render the given lines and insert
the default line at the start, resetting the index to 0. -/
def renderTextDefault (ls : List String) (n : NpcTalk) : NpcTalk :=
  let lines := "Press E to talk" :: ls
  { n with lines := lines, lineIndex := 0, textSurf := lines.getD 0 "" }

/-- One iteration of the event loop of TalkingNPC.update: an E key-down
sets talking and advances the line index by one while it is below the
last index (in which case the displayed surface is switched to the new
line; the index stays in range, so the list access never misses and
the getD default is never used). -/
def talkStep (n : NpcTalk) (ev : GEvent) : NpcTalk :=
  if isEDown ev then
    if n.lineIndex < n.lines.length - 1 then
      { n with
          talking := true
          lineIndex := n.lineIndex + 1
          textSurf := n.lines.getD (n.lineIndex + 1) "" }
    else { n with talking := true }
  else n

/-- TalkingNPC.update (src/npc.py lines 89-107): recompute interacting
from the rect overlap, run the event loop while interacting (otherwise
clear talking), then update the text alpha expansion.  In each branch
the freshly computed interacting value is written out directly (it is
true in the first branch and false in the second).  The animation state
string handled by handle_states is draw-only and not modelled. -/
def talkUpdate (info : EventInfo) (pRect : Rect) (n : NpcTalk) : NpcTalk :=
  let n2 :=
    if n.rect.collide pRect then
      info.events.foldl talkStep { n with interacting := true }
    else { n with interacting := false, talking := false }
  { n2 with
      alpha := (Expansion.update ⟨n2.alpha, 0, 255, 25⟩ (n.rect.collide pRect) info.dt).number }

/-- The persisted player settings record the NPC stages mutate:
inventory, items_delivered (JSON lists of item-id strings) and the
seashell counter. -/
structure Settings where
  inventory : List String
  delivered : List String
  seashells : ℕ
deriving DecidableEq

/-- src.npc.QuestGiverNPC state on top of its TalkingNPC part.  The
text_if_item property is stored already split on the double newline. -/
structure GiverNpc where
  talk : NpcTalk
  item : String
  textIfItemLines : List String
  questDone : Bool
  checkFinished : Bool
  questOngoing : Bool
deriving DecidableEq

/-- QuestGiverNPC.update (src/npc.py lines 140-157): run the TalkingNPC
update, recompute quest_done / quest_ongoing from the settings, then
either latch the post-quest script (once) or, while talking with the
item neither carried nor delivered, grant the item into the inventory
and raise the new-quest flag.  Returns the new NPC state, settings and
player.new_quest flag. -/
def giverUpdate (info : EventInfo) (pRect : Rect) (g : GiverNpc)
    (st : Settings) (newQuest : Bool) : GiverNpc × Settings × Bool :=
  let talk := talkUpdate info pRect g.talk
  let qd := decide (g.item ∈ st.delivered)
  let qo := decide (g.item ∈ st.inventory)
  let g1 := { g with talk := talk, questDone := qd, questOngoing := qo }
  if qd && !g.checkFinished then
    ({ g1 with
        checkFinished := true
        talk := renderTextDefault g.textIfItemLines g1.talk }, st, newQuest)
  else if talk.talking && !qo && !qd then
    (g1, { st with inventory := st.inventory ++ [g.item] }, true)
  else (g1, st, newQuest)

/-- One frame of the pipeline as far as the quest-giver and the
new-quest flag are concerned: PlayerStage.update first resets
player.new_quest to False (src/states/game_state.py line 165), then the
NPC stage runs the giver's update, which may raise the flag again; the
UI stage reads it afterwards in the same frame.  Returns the end-state
and the end-of-frame value of new_quest. -/
def giverFrame (info : EventInfo) (pRect : Rect) (s : GiverNpc × Settings) :
    (GiverNpc × Settings) × Bool :=
  let r := giverUpdate info pRect s.1 s.2 false
  ((r.1, r.2.1), r.2.2)

/-- A session of quest-giver frames, recording per frame the
end-of-frame value of player.new_quest (equivalently: whether the grant
branch executed in that frame). -/
def runGiver : List (EventInfo × Rect) → GiverNpc × Settings →
    (GiverNpc × Settings) × List Bool
  | [], s => (s, [])
  | inp :: inps, s =>
      let f := giverFrame inp.1 inp.2 s
      let rest := runGiver inps f.1
      (rest.1, f.2 :: rest.2)

/-- Python list.remove(a): remove the first occurrence, or fail with
ValueError when absent. -/
def removeFirst (xs : List String) (a : String) : Option (List String) :=
  if a ∈ xs then some (xs.erase a) else none

/-- The transfer loop of QuestReceiverNPC.update: for each required
item, remove it from the inventory (propagating the ValueError of a
missing item as none) and append it to items_delivered. -/
def transferItems : List String → Settings → Option Settings
  | [], st => some st
  | i :: is, st =>
      match removeFirst st.inventory i with
      | none => none
      | some inv =>
          transferItems is { st with inventory := inv, delivered := st.delivered ++ [i] }

/-- src.npc.QuestReceiverNPC state on top of its TalkingNPC part.  The
required items list comes from splitting the item property on the
double newline (hence it is never empty), and text_if_item is stored
already split. -/
structure ReceiverNpc where
  talk : NpcTalk
  items : List String
  textIfItemLines : List String
  questDone : Bool
  questOngoing : Bool
  checkFinished : Bool
  checkFinished2 : Bool
deriving DecidableEq

/-- all([item in player.settings["items_delivered"] for item in self.items]). -/
def qdOf (r : ReceiverNpc) (st : Settings) : Bool :=
  r.items.all fun i => decide (i ∈ st.delivered)

/-- all([item in player.settings["inventory"] for item in self.items]). -/
def qoOf (r : ReceiverNpc) (st : Settings) : Bool :=
  r.items.all fun i => decide (i ∈ st.inventory)

/-- First step of QuestReceiverNPC.update after the TalkingNPC part:
store the recomputed quest_done / quest_ongoing flags. -/
def recR1 (info : EventInfo) (pRect : Rect) (r : ReceiverNpc) (st : Settings) :
    ReceiverNpc :=
  { r with
      talk := talkUpdate info pRect r.talk
      questDone := qdOf r st
      questOngoing := qoOf r st }

/-- Second step: on the first update that finds the quest already
finished, swap in the post-quest script. -/
def recR2 (info : EventInfo) (pRect : Rect) (r : ReceiverNpc) (st : Settings) :
    ReceiverNpc :=
  if qdOf r st && !r.checkFinished then
    { recR1 info pRect r st with
        talk := renderTextDefault r.textIfItemLines (recR1 info pRect r st).talk }
  else recR1 info pRect r st

/-- Third step: the unconditional check_finished latch (set outside the
branch in the source). -/
def recR3 (info : EventInfo) (pRect : Rect) (r : ReceiverNpc) (st : Settings) :
    ReceiverNpc :=
  { recR2 info pRect r st with checkFinished := true }

/-- The flag-and-script part of QuestReceiverNPC.update: TalkingNPC
update, quest_done / quest_ongoing recomputation, the two latched
script swaps and the unconditional check_finished latch, in source
order (src/npc.py lines 186-208). -/
def recPhase1 (info : EventInfo) (pRect : Rect) (r : ReceiverNpc)
    (st : Settings) : ReceiverNpc :=
  if (talkUpdate info pRect r.talk).interacting && qoOf r st && !r.checkFinished2 then
    { recR3 info pRect r st with
        checkFinished2 := true
        talk := renderTextDefault r.textIfItemLines (recR3 info pRect r st).talk }
  else recR3 info pRect r st

/-- QuestReceiverNPC.update (src/npc.py lines 186-216): the flag/script
phase, then, while check_finished_2 and talking and quest_ongoing, the
item transfer followed by the seashell increment.  A ValueError raised
by a failing inventory removal is modelled as none.  The Bool result
records whether the transfer branch executed. -/
def receiverUpdate (info : EventInfo) (pRect : Rect) (r : ReceiverNpc)
    (st : Settings) : Option (ReceiverNpc × Settings × Bool) :=
  if (recPhase1 info pRect r st).checkFinished2 &&
      (talkUpdate info pRect r.talk).talking && qoOf r st then
    match transferItems r.items st with
    | none => none
    | some st1 =>
        some (recPhase1 info pRect r st, { st1 with seashells := st1.seashells + 1 }, true)
  else some (recPhase1 info pRect r st, st, false)

/-- A session of quest-receiver updates, recording per update the pair
(quest_ongoing as computed in that update, whether the transfer branch
executed). -/
def runReceiver : List (EventInfo × Rect) → ReceiverNpc → Settings →
    Option ((ReceiverNpc × Settings) × List (Bool × Bool))
  | [], r, st => some ((r, st), [])
  | inp :: inps, r, st =>
      match receiverUpdate inp.1 inp.2 r st with
      | none => none
      | some (r', st', d) =>
          match runReceiver inps r' st' with
          | none => none
          | some (res, tr) => some (res, (qoOf r st, d) :: tr)

/-- src.npc.ItemNPC state: rect, item id, the picked-up latch and the
prompt's alpha expansion number. -/
structure ItemNpc where
  rect : Rect
  item : String
  pickedUp : Bool
  alpha : ℚ
deriving DecidableEq

/-- ItemNPC.update (src/npc.py lines 242-260): latch picked_up when the
item is already carried or delivered; then, while overlapping and not
picked up, the event loop sets picked_up and appends the item to the
inventory once per E key-down event (the loop itself does not re-check
picked_up); finally the prompt alpha is updated. -/
def itemNpcUpdate (info : EventInfo) (pRect : Rect) (n : ItemNpc)
    (st : Settings) : ItemNpc × Settings :=
  let picked1 := n.pickedUp || decide (n.item ∈ st.inventory) || decide (n.item ∈ st.delivered)
  let inter := pRect.collide n.rect
  let r :=
    if inter && !picked1 then
      info.events.foldl
        (fun (p : Bool × Settings) ev =>
          if isEDown ev then (true, { p.2 with inventory := p.2.inventory ++ [n.item] })
          else p)
        (picked1, st)
    else (picked1, st)
  let ex := Expansion.update ⟨n.alpha, 0, 255, 25⟩ (inter && !r.1) info.dt
  ({ n with pickedUp := r.1, alpha := ex.number }, r.2)

/-- engine.enums.GameStates. -/
inductive GS where
  | game
  | menu
  | intro
  | credits
deriving DecidableEq

/-- The externally visible side effects of the transition branch of the
game state's TransitionStage.update, in the order the source performs
them. -/
inductive TEffect where
  | save
  | musicStop
  | musicUnload
  | assignNext
deriving DecidableEq

/-- The fields of the game state that TransitionStage.update reads and
writes: the externally visible next_state, the internal marker
_next_state, and the fade direction flag of the transition. -/
structure TransState where
  nextState : Option GS
  marker : Option GS
  fadeIn : Bool
deriving DecidableEq

/-- TransitionStage.update of the game state (src/states/game_state.py
lines 454-468).  The marker argument is the value of _next_state after
the earlier stages of this frame ran; the event argument is the value
of transition.event after this frame's transition.update (the fade
animation internals live in engine/animations.py, outside src/, so the
completion event is taken as an input).  When the marker is set, the
fade direction is forced out; when additionally the fade completion
event fired, the save is written, the music stopped and unloaded, and
only then next_state is assigned — returned as the ordered effect
list. -/
def transitionUpdate (s : TransState) (marker : Option GS) (event : Bool) :
    TransState × List TEffect :=
  let s1 : TransState := { s with marker := marker }
  match marker with
  | none => (s1, [])
  | some g =>
      let s2 := { s1 with fadeIn := false }
      if event then
        ({ s2 with nextState := some g },
          [TEffect.save, TEffect.musicStop, TEffect.musicUnload, TEffect.assignNext])
      else (s2, [])

/-- A sequence of per-frame TransitionStage.update calls, each with the
marker value established by the earlier stages of that frame and the
fade event flag of that frame. -/
def runTransition : List (Option GS × Bool) → TransState → TransState
  | [], s => s
  | step :: steps, s => runTransition steps (transitionUpdate s step.1 step.2).1

/-! ## Lemmas about Player.move -/

theorem jumpLoop_spec (evs : List GEvent) (j : Bool) (v : ℚ) (imp : Bool) :
    jumpLoop evs (j, v, imp) =
      (j || evs.any isSpaceDown,
       if !j && evs.any isSpaceDown then -15 else v,
       imp || (!j && evs.any isSpaceDown)) := by
  induction evs generalizing j v imp with
  | nil => simp [jumpLoop]
  | cons ev evs ih =>
      by_cases hev : isSpaceDown ev
      · cases j with
        | true => simp [jumpLoop, hev, ih]
        | false => simp [jumpLoop, hev, ih]
      · simp only [jumpLoop, hev, Bool.false_and, Bool.and_false, if_neg,
          Bool.false_eq_true, not_false_iff, ite_false, List.any_cons,
          Bool.false_or]
        exact ih j v imp

theorem moveI_impulse (info : EventInfo) (s : PlayerState) :
    (playerMoveI info s).2 = (!s.jumping && info.events.any isSpaceDown) := by
  simp [playerMoveI, jumpLoop_spec]

theorem moveI_jumping (info : EventInfo) (s : PlayerState) :
    (playerMoveI info s).1.jumping = (s.jumping || info.events.any isSpaceDown) := by
  simp [playerMoveI, jumpLoop_spec]

theorem moveI_vely (info : EventInfo) (s : PlayerState) :
    (playerMoveI info s).1.vely =
      if !s.jumping && info.events.any isSpaceDown then -15
      else velAfterGravity s info.dt := by
  simp [playerMoveI, jumpLoop_spec, velAfterGravity]

/-- The grounded demo player: standing still, vertical velocity zero,
not jumping. -/
def demoPlayer : PlayerState :=
  { rect := ⟨0, 0, 16, 16⟩, velx := 0, vely := 0, jumping := false,
    state := PState.idle, facing := Facing.right }

/-- An input frame with dt = 1, no keys held and a single jump key-down
event. -/
def demoJumpInfo : EventInfo :=
  { dt := 1, keys := fun _ => false, events := [GEvent.keyDown PKey.space] }

/-- C2: the claim states that a jump impulse is applied only when the
vertical velocity is exactly zero at the moment the jump key-down event
is processed.  Counterexample: from the grounded state with vel.y = 0
and jumping = false, Player.move first integrates gravity, so when the
event loop processes the space key-down the vertical velocity is
3.5 * dt = 7/2 and not zero, yet the impulse is applied (vel.y becomes
-15 and jumping becomes true).  The code only checks the jumping flag,
never the velocity. -/
theorem claim2_counterexample :
    (playerMoveI demoJumpInfo demoPlayer).2 = true ∧
      (playerMoveI demoJumpInfo demoPlayer).1.vely = -15 ∧
      (playerMoveI demoJumpInfo demoPlayer).1.jumping = true ∧
      velAfterGravity demoPlayer 1 = 7/2 ∧ (7/2 : ℚ) ≠ 0 := by
  refine ⟨?_, ?_, ?_, ?_, by norm_num⟩ <;>
    norm_num [velAfterGravity, demoPlayer, demoJumpInfo, playerMoveI, jumpLoop,
      isSpaceDown]

/-- C2 (amended): in every Player.move call, a jump impulse is applied
exactly when the jumping flag is false at entry and some space key-down
event is present; the vertical velocity is not consulted (it already
includes this frame's gravity when the event is processed).  When the
impulse is applied, vel.y is set to -jump_height = -15 and jumping is
set; otherwise vel.y is the gravity-integrated value. -/
theorem claim2_amended :
    ∀ (info : EventInfo) (s : PlayerState),
      (playerMoveI info s).2 = (!s.jumping && info.events.any isSpaceDown) ∧
      (playerMoveI info s).1.jumping = (s.jumping || info.events.any isSpaceDown) ∧
      (playerMoveI info s).1.vely =
        (if !s.jumping && info.events.any isSpaceDown then -15
         else velAfterGravity s info.dt) :=
  fun info s => ⟨moveI_impulse info s, moveI_jumping info s, moveI_vely info s⟩

/-! ## Camera -/

/-- C8: after every Camera.adjust_to call, from any camera state (in
particular after any sequence of calls starting from the freshly
constructed camera Camera.make, whose scroll starts at (0, -48)), the
vertical scroll offset is at most the fixed bound 48, because the
update ends with scroll.y = min(scroll.y, 48). -/
theorem claim8_camera_bound (c : Camera) (dt tx ty : ℚ) :
    (c.adjustTo dt tx ty).scrolly ≤ 48 := by
  simp only [Camera.adjustTo]
  exact min_le_right _ _

/-! ## Lemmas about TileStage.collisions -/

theorem collide_false_of_right_le (a b : Rect) (h : a.x + a.w ≤ b.x) :
    a.collide b = false := by
  simp only [Rect.collide, decide_eq_false_iff_not]
  rintro ⟨-, h2, -, -⟩
  linarith

theorem collide_false_of_left_ge (a b : Rect) (h : b.x + b.w ≤ a.x) :
    a.collide b = false := by
  simp only [Rect.collide, decide_eq_false_iff_not]
  rintro ⟨h1, -, -, -⟩
  linarith

theorem collide_false_of_bottom_le (a b : Rect) (h : a.y + a.h ≤ b.y) :
    a.collide b = false := by
  simp only [Rect.collide, decide_eq_false_iff_not]
  rintro ⟨-, -, -, h4⟩
  linarith

theorem collide_false_of_top_ge (a b : Rect) (h : b.y + b.h ≤ a.y) :
    a.collide b = false := by
  simp only [Rect.collide, decide_eq_false_iff_not]
  rintro ⟨-, -, h3, -⟩
  linarith

theorem vStep_rect_x (p : PlayerState) (ds : Bool) (t : Rect) :
    ((vStep p ds t).1).rect.x = p.rect.x := by
  unfold vStep
  split_ifs <;> rfl

theorem vStep_rect_w (p : PlayerState) (ds : Bool) (t : Rect) :
    ((vStep p ds t).1).rect.w = p.rect.w := by
  unfold vStep
  split_ifs <;> rfl

theorem vStep_vely_le (p : PlayerState) (ds : Bool) (t : Rect) :
    (vStep p ds t).1.vely = p.vely ∨ (vStep p ds t).1.vely = 0 := by
  unfold vStep
  split_ifs <;> simp

theorem hStep_jumping (p : PlayerState) (t : Rect) :
    (hStep p t).jumping = p.jumping := by
  unfold hStep
  split_ifs <;> rfl

theorem hStep_velx (p : PlayerState) (t : Rect) :
    (hStep p t).velx = p.velx := by
  unfold hStep
  split_ifs <;> rfl

theorem hStep_vely (p : PlayerState) (t : Rect) :
    (hStep p t).vely = p.vely := by
  unfold hStep
  split_ifs <;> rfl

theorem hStep_rect_y (p : PlayerState) (t : Rect) :
    (hStep p t).rect.y = p.rect.y := by
  unfold hStep
  split_ifs <;> rfl

theorem hStep_rect_w (p : PlayerState) (t : Rect) :
    (hStep p t).rect.w = p.rect.w := by
  unfold hStep
  split_ifs <;> rfl

theorem hStep_rect_h (p : PlayerState) (t : Rect) :
    (hStep p t).rect.h = p.rect.h := by
  unfold hStep
  split_ifs <;> rfl

/-- The final falling check of TileStage.collisions never moves the
rect. -/
theorem jump_guard_rect (c : Prop) [Decidable c] (p : PlayerState) :
    (if c then { p with jumping := true } else p).rect = p.rect := by
  split <;> rfl

/-- Resolution against a single tile: if the entity does not overlap the
tile before the displacement, it does not overlap it afterwards.  Each
pass either leaves the rect clear of the tile or snaps the moved edge
exactly onto the facing tile edge, which kills the overlap on that
axis, and the other pass never moves the rect back across that edge. -/
theorem collisions_single (t : Rect) (dt : ℚ) (e : PlayerState)
    (h : e.rect.collide t = false) :
    (collisions [t] dt e).rect.collide t = false := by
  have hred : collisions [t] dt e =
      (if 0 < (vStep (shiftY dt (hStep (shiftX dt e) t)) false t).1.vely then
        { (vStep (shiftY dt (hStep (shiftX dt e) t)) false t).1 with jumping := true }
      else (vStep (shiftY dt (hStep (shiftX dt e) t)) false t).1) := rfl
  rw [hred, jump_guard_rect]
  by_cases hc1 : (shiftX dt e).rect.collide t = true
  · -- horizontal pass collided with the tile
    rcases lt_trichotomy 0 e.velx with hvx | hvx | hvx
    · -- moving rightward: the right edge was snapped to the tile's left edge
      have hx : (hStep (shiftX dt e) t).rect.x = t.x - e.rect.w := by
        unfold hStep
        rw [if_pos hc1, if_pos (show (0 : ℚ) < (shiftX dt e).velx from hvx)]
        rfl
      apply collide_false_of_right_le
      rw [vStep_rect_x, vStep_rect_w]
      have hw : (hStep (shiftX dt e) t).rect.w = e.rect.w := by
        rw [hStep_rect_w]
        rfl
      unfold shiftY
      simp only [hx, hw]
      linarith
    · -- velocity zero: the horizontal displacement was a no-op, so the
      -- collision contradicts the hypothesis
      exfalso
      have : (shiftX dt e).rect = e.rect := by
        unfold shiftX
        rw [← hvx]
        simp
      rw [this, h] at hc1
      exact Bool.false_ne_true hc1
    · -- moving leftward: the left edge was snapped to the tile's right edge
      have hx : (hStep (shiftX dt e) t).rect.x = t.x + t.w := by
        unfold hStep
        rw [if_pos hc1,
          if_neg (show ¬ (0 : ℚ) < (shiftX dt e).velx from asymm hvx),
          if_pos (show (shiftX dt e).velx < 0 from hvx)]
        rfl
      apply collide_false_of_left_ge
      rw [vStep_rect_x]
      unfold shiftY
      simp only [hx]
      exact le_refl _
  · -- the horizontal pass left the rect clear of the tile
    have hc1' : (shiftX dt e).rect.collide t = false := by
      revert hc1
      cases (shiftX dt e).rect.collide t <;> simp
    have hstep1 : hStep (shiftX dt e) t = shiftX dt e := by
      unfold hStep
      simp [hc1']
    rw [hstep1]
    by_cases hc2 : (shiftY dt (shiftX dt e)).rect.collide t = true
    · rcases lt_trichotomy 0 e.vely with hvy | hvy | hvy
      · -- falling: the bottom edge was snapped to the tile's top edge
        have hvy' : 0 < (shiftY dt (shiftX dt e)).vely := hvy
        have hy : (vStep (shiftY dt (shiftX dt e)) false t).1.rect =
            (shiftY dt (shiftX dt e)).rect.setBottom t.y := by
          unfold vStep
          simp [hc2, hvy']
        rw [hy]
        apply collide_false_of_bottom_le
        unfold Rect.setBottom
        simp only
        linarith
      · -- vertical velocity zero: the vertical displacement was a no-op
        exfalso
        have : (shiftY dt (shiftX dt e)).rect = (shiftX dt e).rect := by
          unfold shiftY shiftX
          rw [← hvy]
          simp
        rw [this, hc1'] at hc2
        exact Bool.false_ne_true hc2
      · -- rising: the top edge was snapped to the tile's bottom edge
        have hvy2 : ¬ (0 : ℚ) < (shiftY dt (shiftX dt e)).vely := asymm hvy
        have hvy3 : (shiftY dt (shiftX dt e)).vely < 0 := hvy
        have hy : (vStep (shiftY dt (shiftX dt e)) false t).1.rect =
            (shiftY dt (shiftX dt e)).rect.setTop (t.y + t.h) := by
          unfold vStep
          simp [hc2, hvy2, hvy3]
        rw [hy]
        apply collide_false_of_top_ge
        unfold Rect.setTop
        simp only
        exact le_refl _
    · -- no vertical collision either: the rect is unchanged and clear
      have hc2' : (shiftY dt (shiftX dt e)).rect.collide t = false := by
        revert hc2
        cases (shiftY dt (shiftX dt e)).rect.collide t <;> simp
      have hstep2 : (vStep (shiftY dt (shiftX dt e)) false t).1 =
          shiftY dt (shiftX dt e) := by
        unfold vStep
        simp [hc2']
      rw [hstep2]
      exact hc2'

/-- C1 (amended): the axis-separated resolution guarantees
non-overlap only when the queried neighborhood holds at most one tile:
with several tiles, a snap against one tile can push the rect into a
tile already processed, and a later pass iteration can find the
velocity already zeroed and leave the overlap. -/
theorem claim1_amended (tiles : List Rect) (dt : ℚ) (e : PlayerState)
    (hlen : tiles.length ≤ 1)
    (hpre : ∀ t ∈ tiles, e.rect.collide t = false) :
    ∀ t ∈ tiles, (collisions tiles dt e).rect.collide t = false := by
  match tiles, hlen with
  | [], _ => intro t ht; exact absurd ht (List.not_mem_nil t)
  | [t], _ =>
      intro t' ht'
      rw [List.mem_singleton] at ht'
      subst ht'
      exact collisions_single t' dt e (hpre t' (List.mem_singleton.mpr rfl))

/-- The left tile of the C1 counterexample. -/
def tileE : Rect := ⟨0, 0, 16, 16⟩

/-- The right tile of the C1 counterexample, lower and 8 units past the
left tile, so the gap between them is narrower than the entity. -/
def tileL : Rect := ⟨24, 20, 16, 16⟩

/-- The C1 counterexample entity: left of both tiles, moving rightward
fast enough to land between them. -/
def demoEntityC1 : PlayerState :=
  { rect := ⟨-40, 12, 16, 16⟩, velx := 60, vely := 0, jumping := false,
    state := PState.idle, facing := Facing.right }

/-- C1: the claim that the resolved rect overlaps no tile of the
queried neighborhood fails with two tiles.  The entity starts clear of
both tiles and moves rightward; after the displacement it collides only
with the later tile, and the snap of its right edge onto that tile's
left edge pushes it back into the earlier tile, which the horizontal
loop has already passed; the vertical pass (velocity zero) leaves the
overlap in place. -/
theorem claim1_counterexample :
    (demoEntityC1.rect.collide tileE = false ∧
      demoEntityC1.rect.collide tileL = false) ∧
    (collisions [tileE, tileL] 1 demoEntityC1).rect.collide tileE = true := by
  constructor
  · constructor <;>
      norm_num [demoEntityC1, tileE, tileL, Rect.collide]
  · norm_num [collisions, collisionsDS, jumpGuard, shiftX, shiftY, hStep, vStep,
      Rect.collide, Rect.setRight, Rect.setLeft, Rect.setTop, Rect.setBottom,
      demoEntityC1, tileE, tileL]

/-- A single tile below a falling entity, for the C1 witness. -/
def demoTileW : Rect := ⟨0, 32, 16, 16⟩

/-- The C1 witness entity: directly above the tile, falling. -/
def demoEntityW : PlayerState :=
  { rect := ⟨0, 0, 16, 16⟩, velx := 0, vely := 40, jumping := false,
    state := PState.idle, facing := Facing.right }

/-- Witness for the amended C1 theorem: a falling entity over a single
tile starts clear of it and ends clear of it (snapped onto its top). -/
theorem claim1_witness :
    (collisions [demoTileW] 1 demoEntityW).rect.collide demoTileW = false :=
  claim1_amended [demoTileW] 1 demoEntityW (by simp)
    (by
      intro t ht
      rw [List.mem_singleton] at ht
      subst ht
      norm_num [demoEntityW, demoTileW, Rect.collide])
    demoTileW (List.mem_singleton.mpr rfl)

/-! ## The airborne jump guard (C3) -/

theorem vfold_snd_mono (tiles : List Rect) :
    ∀ pb : PlayerState × Bool, pb.2 = true →
      (tiles.foldl (fun pb t => vStep pb.1 pb.2 t) pb).2 = true := by
  induction tiles with
  | nil => intro pb h; exact h
  | cons t ts ih =>
      intro pb h
      simp only [List.foldl_cons]
      apply ih
      rw [h]
      unfold vStep
      split_ifs <;> rfl

/-- If no downward snap occurred during the vertical loop, the jumping
flag went through it unchanged. -/
theorem vfold_no_ds_jumping (tiles : List Rect) (p : PlayerState) (b : Bool)
    (h : (tiles.foldl (fun pb t => vStep pb.1 pb.2 t) (p, b)).2 = false) :
    (tiles.foldl (fun pb t => vStep pb.1 pb.2 t) (p, b)).1.jumping = p.jumping := by
  induction tiles generalizing p b with
  | nil => rfl
  | cons t ts ih =>
      simp only [List.foldl_cons] at h ⊢
      by_cases hc : p.rect.collide t = true
      · by_cases hvy : (0 : ℚ) < p.vely
        · -- a downward snap: its flag survives the rest of the fold,
          -- contradicting the hypothesis
          exfalso
          have hstep : vStep p b t =
              ({ p with rect := p.rect.setBottom t.y, jumping := false, vely := 0 },
                true) := by
            unfold vStep
            rw [if_pos hc, if_pos hvy]
          rw [hstep] at h
          rw [vfold_snd_mono ts _ rfl] at h
          exact absurd h (by decide)
        · by_cases hvy2 : p.vely < 0
          · have hstep : vStep p b t =
                ({ p with rect := p.rect.setTop (t.y + t.h), vely := 0 }, b) := by
              unfold vStep
              rw [if_pos hc, if_neg hvy, if_pos hvy2]
            rw [hstep] at h ⊢
            exact ih _ _ h
          · have hstep : vStep p b t = (p, b) := by
              unfold vStep
              rw [if_pos hc, if_neg hvy, if_neg hvy2]
            rw [hstep] at h ⊢
            exact ih _ _ h
      · have hstep : vStep p b t = (p, b) := by
          unfold vStep
          rw [if_neg hc]
        rw [hstep] at h ⊢
        exact ih _ _ h

theorem hPass_jumping (tiles : List Rect) (p : PlayerState) :
    (tiles.foldl hStep p).jumping = p.jumping := by
  induction tiles generalizing p with
  | nil => rfl
  | cons t ts ih =>
      simp only [List.foldl_cons]
      rw [ih, hStep_jumping]

theorem jumpGuard_snd (v : PlayerState × Bool) : (jumpGuard v).2 = v.2 := rfl

theorem jumpGuard_jumping (v : PlayerState × Bool) (h : v.1.jumping = true) :
    (jumpGuard v).1.jumping = true := by
  unfold jumpGuard
  split
  · simp
  · simpa using h

/-- An airborne (jumping) entity stays marked jumping through a
collision resolution that performs no landing snap. -/
theorem collisionsDS_jumping_true (tiles : List Rect) (dt : ℚ) (s : PlayerState)
    (hj : s.jumping = true)
    (hds : (collisionsDS tiles dt s).2 = false) :
    (collisionsDS tiles dt s).1.jumping = true := by
  unfold collisionsDS at hds ⊢
  rw [jumpGuard_snd] at hds
  apply jumpGuard_jumping
  rw [vfold_no_ds_jumping _ _ _ hds]
  show (tiles.foldl hStep (shiftX dt s)).jumping = true
  rw [hPass_jumping]
  exact hj

/-- C3: over any sequence of frames (collision resolution followed by
Player.move) in which no frame performs a downward landing snap, at
most one jump impulse is applied in total: an impulse sets the jumping
flag, only a landing snap ever clears it, and the impulse branch
requires the flag to be clear. -/
theorem claim3_single_airborne_impulse (frames : List FrameInput) (s : PlayerState)
    (h : (runFrames frames s).2.2 = false) :
    (runFrames frames s).2.1 ≤ 1 := by
  have aux : ∀ (fr : List FrameInput) (p : PlayerState), p.jumping = true →
      (runFrames fr p).2.2 = false → (runFrames fr p).2.1 = 0 := by
    intro fr
    induction fr with
    | nil => intro p _ _; rfl
    | cons f fs ih =>
        intro p hj hflag
        simp only [runFrames] at hflag ⊢
        rw [Bool.or_eq_false_iff] at hflag
        have h1 : (collisionsDS f.tiles f.dt p).1.jumping = true :=
          collisionsDS_jumping_true f.tiles f.dt p hj hflag.1
        have h2 : (playerMoveI f.info (collisionsDS f.tiles f.dt p).1).2 = false := by
          rw [moveI_impulse, h1]
          rfl
        have h3 : (playerMoveI f.info (collisionsDS f.tiles f.dt p).1).1.jumping = true := by
          rw [moveI_jumping, h1]
          rfl
        rw [h2, ih _ h3 hflag.2]
        simp
  induction frames generalizing s with
  | nil => simp [runFrames]
  | cons f fs ih =>
      simp only [runFrames] at h ⊢
      rw [Bool.or_eq_false_iff] at h
      by_cases himp : (playerMoveI f.info (collisionsDS f.tiles f.dt s).1).2 = true
      · have hj : (playerMoveI f.info (collisionsDS f.tiles f.dt s).1).1.jumping = true := by
          rw [moveI_impulse] at himp
          rw [moveI_jumping]
          simp only [Bool.and_eq_true] at himp
          simp [himp.2]
        rw [himp, aux _ _ hj h.2]
        simp
      · rw [Bool.not_eq_true] at himp
        rw [himp]
        simpa using ih _ h.2

/-- The C3 witness frame sequence: two frames over empty tile queries,
each with a jump key-down; only the first applies an impulse. -/
def demoFrames : List FrameInput :=
  [ { tiles := [], dt := 1, info := demoJumpInfo },
    { tiles := [], dt := 1, info := demoJumpInfo } ]

/-- Witness for C3 at a concrete two-frame run with a jump key-down in
each frame and no landing: the impulse count is at most one (and the
hypothesis of no landing snap holds). -/
theorem claim3_witness :
    (runFrames demoFrames demoPlayer).2.2 = false ∧
      (runFrames demoFrames demoPlayer).2.1 ≤ 1 :=
  ⟨by simp [runFrames, demoFrames, collisionsDS, jumpGuard],
   claim3_single_airborne_impulse demoFrames demoPlayer
    (by simp [runFrames, demoFrames, collisionsDS, jumpGuard])⟩

/-! ## TalkingNPC dialogue stepping (C9) -/

theorem talkStep_lines (n : NpcTalk) (ev : GEvent) :
    (talkStep n ev).lines = n.lines := by
  unfold talkStep
  split_ifs <;> rfl

theorem talkFold_lines (evs : List GEvent) (n : NpcTalk) :
    (evs.foldl talkStep n).lines = n.lines := by
  induction evs generalizing n with
  | nil => rfl
  | cons ev evs ih =>
      simp only [List.foldl_cons]
      rw [ih, talkStep_lines]

theorem talkFold_index_le (evs : List GEvent) (n : NpcTalk)
    (h : n.lineIndex ≤ n.lines.length - 1) :
    (evs.foldl talkStep n).lineIndex ≤ n.lines.length - 1 := by
  induction evs generalizing n with
  | nil => exact h
  | cons ev evs ih =>
      simp only [List.foldl_cons]
      have hlines : (talkStep n ev).lines = n.lines := talkStep_lines n ev
      have hstep : (talkStep n ev).lineIndex ≤ (talkStep n ev).lines.length - 1 := by
        rw [hlines]
        unfold talkStep
        split_ifs with h1 h2
        · exact h2
        · exact h
        · exact h
      have := ih (talkStep n ev) hstep
      rw [hlines] at this
      exact this

theorem talkFold_saturated (evs : List GEvent) (n : NpcTalk)
    (h : n.lineIndex = n.lines.length - 1) :
    (evs.foldl talkStep n).lineIndex = n.lineIndex ∧
      (evs.foldl talkStep n).textSurf = n.textSurf := by
  induction evs generalizing n with
  | nil => exact ⟨rfl, rfl⟩
  | cons ev evs ih =>
      simp only [List.foldl_cons]
      have hstep : (talkStep n ev).lineIndex = n.lineIndex ∧
          (talkStep n ev).textSurf = n.textSurf ∧
          (talkStep n ev).lines = n.lines := by
        unfold talkStep
        split_ifs with h1 h2
        · exact absurd h2 (by omega)
        · exact ⟨rfl, rfl, rfl⟩
        · exact ⟨rfl, rfl, rfl⟩
      have hsat : (talkStep n ev).lineIndex = (talkStep n ev).lines.length - 1 := by
        rw [hstep.1, hstep.2.2, h]
      obtain ⟨hi, hs⟩ := ih (talkStep n ev) hsat
      exact ⟨hi.trans hstep.1, hs.trans hstep.2.1⟩

/-- talkUpdate seen through the fields the dialogue claims are about:
the alpha write does not touch lines, lineIndex or textSurf, so they
are those of the selected branch. -/
theorem talkUpdate_core (info : EventInfo) (pRect : Rect) (n : NpcTalk) :
    (talkUpdate info pRect n).lines =
        (if n.rect.collide pRect then
          info.events.foldl talkStep { n with interacting := true }
        else { n with interacting := false, talking := false }).lines ∧
      (talkUpdate info pRect n).lineIndex =
        (if n.rect.collide pRect then
          info.events.foldl talkStep { n with interacting := true }
        else { n with interacting := false, talking := false }).lineIndex ∧
      (talkUpdate info pRect n).textSurf =
        (if n.rect.collide pRect then
          info.events.foldl talkStep { n with interacting := true }
        else { n with interacting := false, talking := false }).textSurf :=
  ⟨rfl, rfl, rfl⟩

/-- C9: each TalkingNPC.update keeps the line index within
0 <= line_index <= len(lines) - 1 and leaves the line list itself
unchanged; and when the index already points at the last line, the
update changes neither the index nor the displayed text surface: the
dialogue advance saturates instead of wrapping or erring. -/
theorem claim9_dialogue_saturates (info : EventInfo) (pRect : Rect) (n : NpcTalk)
    (hidx : n.lineIndex ≤ n.lines.length - 1) :
    ((talkUpdate info pRect n).lines = n.lines ∧
      (talkUpdate info pRect n).lineIndex ≤ n.lines.length - 1) ∧
    (n.lineIndex = n.lines.length - 1 →
      (talkUpdate info pRect n).lineIndex = n.lineIndex ∧
      (talkUpdate info pRect n).textSurf = n.textSurf) := by
  obtain ⟨hl, hi, hs⟩ := talkUpdate_core info pRect n
  by_cases hc : n.rect.collide pRect = true
  · rw [if_pos hc] at hl hi hs
    constructor
    · constructor
      · rw [hl, talkFold_lines]
      · rw [hi]
        exact talkFold_index_le info.events { n with interacting := true } hidx
    · intro hsat
      have h2 := talkFold_saturated info.events { n with interacting := true } hsat
      exact ⟨by rw [hi, h2.1], by rw [hs, h2.2]⟩
  · rw [if_neg hc] at hl hi hs
    exact ⟨⟨hl, by rw [hi]; exact hidx⟩, fun _ => ⟨hi, hs⟩⟩

/-- The C9 witness NPC: two lines with the index already at the last
one, overlapping the player. -/
def demoTalkNpc : NpcTalk :=
  { rect := ⟨0, 0, 16, 16⟩, lines := ["Press E to talk", "hello"], lineIndex := 1,
    textSurf := "hello", interacting := false, talking := false, alpha := 0 }

/-- An input frame with a single E key-down, for the NPC witnesses. -/
def demoTalkInfo : EventInfo :=
  { dt := 1, keys := fun _ => false, events := [GEvent.keyDown PKey.e] }

/-- Witness for C9: advancing the demo NPC, already at its last line,
with an E key-press leaves the index and text surface unchanged. -/
theorem claim9_witness :
    (talkUpdate demoTalkInfo demoTalkNpc.rect demoTalkNpc).lines = demoTalkNpc.lines ∧
      (talkUpdate demoTalkInfo demoTalkNpc.rect demoTalkNpc).lineIndex = demoTalkNpc.lineIndex ∧
      (talkUpdate demoTalkInfo demoTalkNpc.rect demoTalkNpc).textSurf = demoTalkNpc.textSurf :=
  ⟨(claim9_dialogue_saturates demoTalkInfo demoTalkNpc.rect demoTalkNpc (by simp [demoTalkNpc])).1.1,
   ((claim9_dialogue_saturates demoTalkInfo demoTalkNpc.rect demoTalkNpc
      (by simp [demoTalkNpc])).2 (by simp [demoTalkNpc])).1,
   ((claim9_dialogue_saturates demoTalkInfo demoTalkNpc.rect demoTalkNpc
      (by simp [demoTalkNpc])).2 (by simp [demoTalkNpc])).2⟩

/-! ## QuestGiverNPC (C6) -/

theorem talkStep_talking (n : NpcTalk) (ev : GEvent) :
    (talkStep n ev).talking = (n.talking || isEDown ev) := by
  unfold talkStep
  split_ifs with h1 h2 <;> simp [h1]

theorem talkFold_talking (evs : List GEvent) (n : NpcTalk) :
    (evs.foldl talkStep n).talking = (n.talking || evs.any isEDown) := by
  induction evs generalizing n with
  | nil => simp
  | cons ev evs ih =>
      simp only [List.foldl_cons, List.any_cons]
      rw [ih, talkStep_talking]
      cases n.talking <;> cases isEDown ev <;> simp

/-- The talking flag after TalkingNPC.update: while overlapping it is
latched by any E key-down of the frame (and keeps its previous value
otherwise); while not overlapping it is cleared. -/
theorem talkUpdate_talking (info : EventInfo) (pRect : Rect) (n : NpcTalk) :
    (talkUpdate info pRect n).talking =
      (if n.rect.collide pRect then n.talking || info.events.any isEDown else false) := by
  have hcore : (talkUpdate info pRect n).talking =
      (if n.rect.collide pRect then
        info.events.foldl talkStep { n with interacting := true }
      else { n with interacting := false, talking := false }).talking := rfl
  rw [hcore]
  by_cases hc : n.rect.collide pRect = true
  · rw [if_pos hc, if_pos hc, talkFold_talking]
  · rw [if_neg hc, if_neg hc]

/-- The condition under which QuestGiverNPC.update executes its grant
branch: actively talking with the item neither carried nor delivered. -/
def giverGrants (info : EventInfo) (pRect : Rect) (g : GiverNpc) (st : Settings) : Bool :=
  (talkUpdate info pRect g.talk).talking &&
    !decide (g.item ∈ st.inventory) && !decide (g.item ∈ st.delivered)

/-- The observable behavior of one QuestGiverNPC.update call: the
new-quest flag is raised exactly by the grant branch, the grant branch
appends the item to the inventory and is the only inventory change,
items_delivered and the seashell counter are untouched, and the NPC's
item id never changes. -/
theorem giverUpdate_spec (info : EventInfo) (pRect : Rect) (g : GiverNpc)
    (st : Settings) (nq0 : Bool) :
    (giverUpdate info pRect g st nq0).2.2 = (nq0 || giverGrants info pRect g st) ∧
    (giverUpdate info pRect g st nq0).2.1.inventory =
      (if giverGrants info pRect g st then st.inventory ++ [g.item] else st.inventory) ∧
    (giverUpdate info pRect g st nq0).2.1.delivered = st.delivered ∧
    (giverUpdate info pRect g st nq0).2.1.seashells = st.seashells ∧
    (giverUpdate info pRect g st nq0).1.item = g.item := by
  unfold giverUpdate giverGrants
  by_cases hqd : g.item ∈ st.delivered <;>
    by_cases hqo : g.item ∈ st.inventory <;>
      by_cases htk : (talkUpdate info pRect g.talk).talking = true <;>
        by_cases hcf : g.checkFinished = true <;>
          simp [hqd, hqo, htk, hcf]

/-- Once the item sits in the inventory, a run of quest-giver frames
never grants again (the grant branch requires the item to be absent,
and nothing in these frames removes it). -/
theorem runGiver_carried (inputs : List (EventInfo × Rect)) :
    ∀ (g : GiverNpc) (st : Settings), g.item ∈ st.inventory →
      (runGiver inputs (g, st)).2.count true = 0 := by
  induction inputs with
  | nil => intro g st _; rfl
  | cons inp inps ih =>
      intro g st hmem
      obtain ⟨hnq, hinv, hdel, hsea, hitem⟩ :=
        giverUpdate_spec inp.1 inp.2 g st false
      have hgr : giverGrants inp.1 inp.2 g st = false := by
        unfold giverGrants
        simp [hmem]
      simp only [runGiver, giverFrame, List.count_cons]
      rw [hnq, hgr]
      have hmem' : (giverUpdate inp.1 inp.2 g st false).1.item ∈
          (giverUpdate inp.1 inp.2 g st false).2.1.inventory := by
        rw [hitem, hinv, hgr]
        simpa using hmem
      rw [ih _ _ hmem']
      simp

theorem runGiver_count (inputs : List (EventInfo × Rect)) :
    ∀ (g : GiverNpc) (st : Settings),
      (runGiver inputs (g, st)).2.count true ≤ 1 := by
  induction inputs with
  | nil => intro g st; simp [runGiver]
  | cons inp inps ih =>
      intro g st
      obtain ⟨hnq, hinv, hdel, hsea, hitem⟩ :=
        giverUpdate_spec inp.1 inp.2 g st false
      simp only [runGiver, giverFrame, List.count_cons]
      rw [hnq]
      by_cases hgr : giverGrants inp.1 inp.2 g st = true
      · have hmem' : (giverUpdate inp.1 inp.2 g st false).1.item ∈
            (giverUpdate inp.1 inp.2 g st false).2.1.inventory := by
          rw [hitem, hinv, hgr]
          simp
        rw [runGiver_carried inps _ _ hmem', hgr]
        simp
      · rw [Bool.not_eq_true] at hgr
        rw [hgr]
        have := ih (giverUpdate inp.1 inp.2 g st false).1
          (giverUpdate inp.1 inp.2 g st false).2.1
        simpa using this

/-- C6: over any session of quest-giver frames, (a) the grant fires in
at most one frame, so a second interact press while the item is carried
or delivered never re-grants it; (b) the end-of-frame new_quest flag
(reset at the start of each frame by PlayerStage.update) is raised in
exactly the grant frames, so it is true for exactly one frame; (c) the
grant appends the item to the inventory and is the only settings
change; and (d) the grant condition holds exactly when the NPC is
talking after this frame's update (latched by an E key-down while
overlapping) with the item neither carried nor delivered. -/
theorem claim6_grant_once :
    (∀ (inputs : List (EventInfo × Rect)) (g : GiverNpc) (st : Settings),
      (runGiver inputs (g, st)).2.count true ≤ 1) ∧
    (∀ (info : EventInfo) (pRect : Rect) (g : GiverNpc) (st : Settings),
      (giverFrame info pRect (g, st)).2 = giverGrants info pRect g st ∧
      (giverFrame info pRect (g, st)).1.2.inventory =
        (if giverGrants info pRect g st then st.inventory ++ [g.item] else st.inventory) ∧
      (giverFrame info pRect (g, st)).1.2.delivered = st.delivered) ∧
    (∀ (info : EventInfo) (pRect : Rect) (n : NpcTalk),
      (talkUpdate info pRect n).talking =
        (if n.rect.collide pRect then n.talking || info.events.any isEDown else false)) := by
  refine ⟨fun inputs g st => runGiver_count inputs g st, ?_, talkUpdate_talking⟩
  intro info pRect g st
  obtain ⟨hnq, hinv, hdel, -, -⟩ := giverUpdate_spec info pRect g st false
  exact ⟨by simpa using hnq, hinv, hdel⟩

/-! ## QuestReceiverNPC: the item transfer (C4, C5, C10) -/

theorem transferItems_spec :
    ∀ (items : List String) (st : Settings), items.Nodup →
      (∀ i ∈ items, i ∈ st.inventory) →
      transferItems items st =
        some ⟨items.foldl List.erase st.inventory, st.delivered ++ items, st.seashells⟩ := by
  intro items
  induction items with
  | nil => intro st _ _; simp [transferItems]
  | cons i is ih =>
      intro st hn hall
      have hi : i ∈ st.inventory := hall i (List.mem_cons_self i is)
      have hrm : removeFirst st.inventory i = some (st.inventory.erase i) := by
        unfold removeFirst
        rw [if_pos hi]
      simp only [transferItems, hrm]
      rw [ih { st with inventory := st.inventory.erase i, delivered := st.delivered ++ [i] }
        (List.Nodup.of_cons hn)
        (fun j hj => (List.mem_erase_of_ne (fun hji => by
          subst hji
          exact (List.nodup_cons.mp hn).1 hj)).mpr (hall j (List.mem_cons_of_mem _ hj)))]
      simp [List.append_assoc]

theorem foldl_erase_subset :
    ∀ (items inv : List String), items.foldl List.erase inv ⊆ inv := by
  intro items
  induction items with
  | nil => intro inv; exact fun a h => h
  | cons i is ih =>
      intro inv
      simp only [List.foldl_cons]
      exact fun a h => List.erase_subset i inv (ih (inv.erase i) h)

theorem foldl_erase_nodup :
    ∀ (items inv : List String), inv.Nodup → (items.foldl List.erase inv).Nodup := by
  intro items
  induction items with
  | nil => intro inv h; exact h
  | cons i is ih =>
      intro inv h
      simp only [List.foldl_cons]
      exact ih (inv.erase i) (List.Nodup.erase i h)

theorem foldl_erase_not_mem :
    ∀ (items inv : List String), inv.Nodup →
      ∀ i ∈ items, i ∉ items.foldl List.erase inv := by
  intro items
  induction items with
  | nil => intro inv _ i hi; exact absurd hi (List.not_mem_nil i)
  | cons j is ih =>
      intro inv hnd i hi
      simp only [List.foldl_cons]
      rcases List.mem_cons.mp hi with hij | hmem
      · subst hij
        intro hcontra
        have h1 : i ∈ inv.erase i := foldl_erase_subset is (inv.erase i) hcontra
        exact (List.Nodup.not_mem_erase hnd) h1
      · exact ih (inv.erase j) (List.Nodup.erase j hnd) i hmem

theorem recPhase1_items (info : EventInfo) (pRect : Rect) (r : ReceiverNpc)
    (st : Settings) : (recPhase1 info pRect r st).items = r.items := by
  unfold recPhase1 recR3 recR2 recR1
  split_ifs <;> rfl

theorem recPhase1_cf2_of_cf2 (info : EventInfo) (pRect : Rect) (r : ReceiverNpc)
    (st : Settings) (h : r.checkFinished2 = true) :
    (recPhase1 info pRect r st).checkFinished2 = true := by
  unfold recPhase1 recR3 recR2 recR1
  split_ifs <;> simp [h]

/-- The membership reading of quest_ongoing. -/
theorem qoOf_eq_true_iff (r : ReceiverNpc) (st : Settings) :
    qoOf r st = true ↔ ∀ i ∈ r.items, i ∈ st.inventory := by
  simp [qoOf, List.all_eq_true]

/-- When quest_ongoing is false the update cannot enter the transfer
branch: the settings are untouched and nothing is removed. -/
theorem receiverUpdate_qo_false (info : EventInfo) (pRect : Rect)
    (r : ReceiverNpc) (st : Settings) (h : qoOf r st = false) :
    receiverUpdate info pRect r st = some (recPhase1 info pRect r st, st, false) := by
  unfold receiverUpdate
  rw [if_neg (by simp [h])]

/-- With a duplicate-free required-item list, the update never fails:
the transfer branch only runs under quest_ongoing, which puts every
required item in the inventory, so every removal finds its item. -/
theorem receiverUpdate_isSome (info : EventInfo) (pRect : Rect)
    (r : ReceiverNpc) (st : Settings) (hn : r.items.Nodup) :
    (receiverUpdate info pRect r st).isSome = true := by
  unfold receiverUpdate
  split
  · rename_i hcond
    have hqo : qoOf r st = true := by
      simp only [Bool.and_eq_true] at hcond
      exact hcond.2
    rw [transferItems_spec r.items st hn ((qoOf_eq_true_iff r st).mp hqo)]
    rfl
  · rfl

/-- What a successful transfer update did: quest_ongoing was true, the
NPC's items are unchanged, every required item was erased once from the
inventory and appended to items_delivered, and the seashell counter
rose by one. -/
theorem receiverUpdate_transfer_char (info : EventInfo) (pRect : Rect)
    (r : ReceiverNpc) (st : Settings) (r' : ReceiverNpc) (st' : Settings)
    (hn : r.items.Nodup)
    (h : receiverUpdate info pRect r st = some (r', st', true)) :
    qoOf r st = true ∧ r'.items = r.items ∧
      st'.inventory = r.items.foldl List.erase st.inventory ∧
      st'.delivered = st.delivered ++ r.items ∧
      st'.seashells = st.seashells + 1 := by
  unfold receiverUpdate at h
  by_cases hcond : ((recPhase1 info pRect r st).checkFinished2 &&
      (talkUpdate info pRect r.talk).talking && qoOf r st) = true
  · have hqo : qoOf r st = true := by
      simp only [Bool.and_eq_true] at hcond
      exact hcond.2
    rw [if_pos hcond,
      transferItems_spec r.items st hn ((qoOf_eq_true_iff r st).mp hqo)] at h
    simp only [Option.some.injEq, Prod.mk.injEq] at h
    refine ⟨hqo, ?_, ?_, ?_, ?_⟩
    · rw [← h.1, recPhase1_items]
    · rw [← h.2.1]
    · rw [← h.2.1]
    · rw [← h.2.1]
  · rw [if_neg hcond] at h
    simp only [Option.some.injEq, Prod.mk.injEq] at h
    exact absurd h.2.2 (by simp)

/-- What an update without transfer did: the settings are unchanged. -/
theorem receiverUpdate_no_transfer_char (info : EventInfo) (pRect : Rect)
    (r : ReceiverNpc) (st : Settings) (r' : ReceiverNpc) (st' : Settings)
    (h : receiverUpdate info pRect r st = some (r', st', false)) :
    r' = recPhase1 info pRect r st ∧ st' = st := by
  unfold receiverUpdate at h
  split at h
  · rcases htr : transferItems r.items st with - | st1 <;> rw [htr] at h
    · exact absurd h (by simp)
    · simp only [Option.some.injEq, Prod.mk.injEq] at h
      exact absurd h.2.2 (by simp)
  · simp only [Option.some.injEq, Prod.mk.injEq] at h
    exact ⟨h.1.symm, h.2.1.symm⟩

/-- The NPC's required item list survives every successful update. -/
theorem receiverUpdate_items (info : EventInfo) (pRect : Rect)
    (r : ReceiverNpc) (st : Settings) (r' : ReceiverNpc) (st' : Settings)
    (d : Bool) (h : receiverUpdate info pRect r st = some (r', st', d)) :
    r'.items = r.items := by
  unfold receiverUpdate at h
  split at h
  · rcases htr : transferItems r.items st with - | st1 <;> rw [htr] at h
    · exact absurd h (by simp)
    · simp only [Option.some.injEq, Prod.mk.injEq] at h
      rw [← h.1, recPhase1_items]
  · simp only [Option.some.injEq, Prod.mk.injEq] at h
    rw [← h.1, recPhase1_items]

/-- The session invariant for a quest receiver, implied by the data
model of the persisted save (inventory and items_delivered are sets of
item ids, so duplicate-free and mutually exclusive) and by the
constructor (the required items come from str.split, which never
returns an empty list, and name distinct items). -/
def RecInv (r : ReceiverNpc) (st : Settings) : Prop :=
  r.items ≠ [] ∧ r.items.Nodup ∧ st.inventory.Nodup ∧
    ∀ a ∈ st.inventory, a ∉ st.delivered

theorem recInv_phase1 (info : EventInfo) (pRect : Rect) (r : ReceiverNpc)
    (st : Settings) (hInv : RecInv r st) :
    RecInv (recPhase1 info pRect r st) st := by
  obtain ⟨hne, hni, hnv, hdisj⟩ := hInv
  refine ⟨?_, ?_, hnv, hdisj⟩
  · rw [recPhase1_items]; exact hne
  · rw [recPhase1_items]; exact hni

/-- Every successful receiver update preserves the session invariant:
a transfer erases the unique inventory occurrence of each required item
and appends it to items_delivered, keeping the two lists disjoint. -/
theorem recInv_preserved (info : EventInfo) (pRect : Rect) (r : ReceiverNpc)
    (st : Settings) (r' : ReceiverNpc) (st' : Settings) (d : Bool)
    (hInv : RecInv r st)
    (h : receiverUpdate info pRect r st = some (r', st', d)) :
    RecInv r' st' := by
  obtain ⟨hne, hni, hnv, hdisj⟩ := hInv
  have hitems := receiverUpdate_items info pRect r st r' st' d h
  cases d with
  | false =>
      obtain ⟨-, hst⟩ := receiverUpdate_no_transfer_char info pRect r st r' st' h
      subst hst
      exact ⟨hitems ▸ hne, hitems ▸ hni, hnv, hdisj⟩
  | true =>
      obtain ⟨hqo, hitems', hinv, hdel, -⟩ :=
        receiverUpdate_transfer_char info pRect r st r' st' hni h
      refine ⟨hitems' ▸ hne, hitems' ▸ hni, ?_, ?_⟩
      · rw [hinv]; exact foldl_erase_nodup _ _ hnv
      · intro a ha hcontra
        rw [hinv] at ha
        rw [hdel] at hcontra
        rcases List.mem_append.mp hcontra with hcd | hci
        · exact hdisj a (foldl_erase_subset _ _ ha) hcd
        · exact foldl_erase_not_mem r.items st.inventory hnv a hci ha

/-- When every required item is already delivered, the update is inert:
quest_ongoing is false, no transfer happens, the settings are
untouched. -/
theorem receiverUpdate_delivered_stable (info : EventInfo) (pRect : Rect)
    (r : ReceiverNpc) (st : Settings) (hInv : RecInv r st)
    (hdel : ∀ i ∈ r.items, i ∈ st.delivered) :
    qoOf r st = false ∧
      receiverUpdate info pRect r st = some (recPhase1 info pRect r st, st, false) := by
  obtain ⟨hne, -, -, hdisj⟩ := hInv
  have hqo : qoOf r st = false := by
    cases hq : qoOf r st with
    | false => rfl
    | true =>
        exfalso
        have hall := (qoOf_eq_true_iff r st).mp hq
        obtain ⟨i, hi⟩ := List.exists_mem_of_ne_nil r.items hne
        exact hdisj i (hall i hi) (hdel i hi)
  exact ⟨hqo, receiverUpdate_qo_false info pRect r st hqo⟩

theorem runReceiver_nil (r : ReceiverNpc) (st : Settings) :
    runReceiver [] r st = some ((r, st), []) := rfl

theorem runReceiver_cons (inp : EventInfo × Rect) (inps : List (EventInfo × Rect))
    (r : ReceiverNpc) (st : Settings) :
    runReceiver (inp :: inps) r st =
      (match receiverUpdate inp.1 inp.2 r st with
      | none => none
      | some (r', st', d) =>
          match runReceiver inps r' st' with
          | none => none
          | some (res, tr) => some (res, (qoOf r st, d) :: tr)) := rfl

/-- Once the delivery is complete, a session of receiver updates stays
inert: every step reports quest_ongoing = false and performs no
transfer. -/
theorem runReceiver_stable (inputs : List (EventInfo × Rect)) :
    ∀ (r : ReceiverNpc) (st : Settings) (res : ReceiverNpc × Settings)
      (tr : List (Bool × Bool)),
      RecInv r st → (∀ i ∈ r.items, i ∈ st.delivered) →
      runReceiver inputs r st = some (res, tr) →
      ∀ p ∈ tr, p = (false, false) := by
  induction inputs with
  | nil =>
      intro r st res tr _ _ h p hp
      rw [runReceiver_nil] at h
      injection h with h'
      injection h' with h1 h2
      rw [← h2] at hp
      exact absurd hp (List.not_mem_nil p)
  | cons inp inps ih =>
      intro r st res tr hInv hdel hrun p hp
      obtain ⟨hqo, hupd⟩ := receiverUpdate_delivered_stable inp.1 inp.2 r st hInv hdel
      rw [runReceiver_cons, hupd] at hrun
      dsimp only at hrun
      rcases hrec : runReceiver inps (recPhase1 inp.1 inp.2 r st) st with - | ⟨res2, tr2⟩
      all_goals rw [hrec] at hrun; dsimp only at hrun
      · exact Option.noConfusion hrun
      · injection hrun with hrun'
        injection hrun' with h1 h2
        rw [← h2] at hp
        rcases List.mem_cons.mp hp with hhead | htail
        · rw [hhead, hqo]
        · refine ih (recPhase1 inp.1 inp.2 r st) st res2 tr2
            (recInv_phase1 inp.1 inp.2 r st hInv) ?_ hrec p htail
          intro i hi
          rw [recPhase1_items] at hi
          exact hdel i hi

/-- After a step that executed the transfer, the rest of the session is
inert. -/
theorem runReceiver_once_aux (inputs : List (EventInfo × Rect)) :
    ∀ (r : ReceiverNpc) (st : Settings) (res : ReceiverNpc × Settings)
      (tr : List (Bool × Bool)),
      RecInv r st →
      runReceiver inputs r st = some (res, tr) →
      ∀ (pre post : List (Bool × Bool)) (step : Bool × Bool),
        tr = pre ++ step :: post → step.2 = true →
        ∀ p ∈ post, p = (false, false) := by
  induction inputs with
  | nil =>
      intro r st res tr _ h pre post step htr _
      rw [runReceiver_nil] at h
      injection h with h'
      injection h' with h1 h2
      rw [← h2] at htr
      have := congrArg List.length htr
      simp only [List.length_nil, List.length_append, List.length_cons] at this
      omega
  | cons inp inps ih =>
      intro r st res tr hInv hrun pre post step htr hstep p hp
      rw [runReceiver_cons] at hrun
      rcases hupd : receiverUpdate inp.1 inp.2 r st with - | ⟨r1, st1, d⟩
      all_goals rw [hupd] at hrun; dsimp only at hrun
      · exact Option.noConfusion hrun
      rcases hrec : runReceiver inps r1 st1 with - | ⟨res2, tr2⟩
      all_goals rw [hrec] at hrun; dsimp only at hrun
      · exact Option.noConfusion hrun
      injection hrun with hrun'
      injection hrun' with hr1 hr2
      have hInv1 : RecInv r1 st1 :=
        recInv_preserved inp.1 inp.2 r st r1 st1 d hInv hupd
      rw [← hr2] at htr
      cases pre with
      | nil =>
          simp only [List.nil_append] at htr
          injection htr with h1 h2
          have hd : d = true := by rw [← h1] at hstep; exact hstep
          subst hd
          obtain ⟨-, hitems, -, hdel, -⟩ :=
            receiverUpdate_transfer_char inp.1 inp.2 r st r1 st1 hInv.2.1 hupd
          have hdelsub : ∀ i ∈ r1.items, i ∈ st1.delivered := by
            intro i hi
            rw [hitems] at hi
            rw [hdel]
            exact List.mem_append_right _ hi
          have := runReceiver_stable inps r1 st1 res2 tr2 hInv1 hdelsub hrec
          rw [← h2] at hp
          exact this p hp
      | cons q pre' =>
          simp only [List.cons_append] at htr
          injection htr with h1 h2
          exact ih r1 st1 res2 tr2 hInv1 hrec pre' post step h2 hstep p hp

/-- C4: over any session of QuestReceiverNPC.update calls from a state
satisfying the save-record invariant, (a) once all required item ids
are in items_delivered, every subsequent update computes
quest_ongoing = false and performs no transfer (so the settings,
including the seashell counter, never change again); and (b) after any
update that executed the delivery transfer, every later update computes
quest_ongoing = false and never transfers again — the transfer, and
with it the single seashell increment, happens at most once per
session, no matter how many frames the delivery conditions hold. -/
theorem claim4_deliver_once (inputs : List (EventInfo × Rect)) (r : ReceiverNpc)
    (st : Settings) (tr : List (Bool × Bool)) (hInv : RecInv r st)
    (hrun : (runReceiver inputs r st).map Prod.snd = some tr) :
    ((∀ i ∈ r.items, i ∈ st.delivered) → ∀ p ∈ tr, p = (false, false)) ∧
    (∀ (pre post : List (Bool × Bool)) (step : Bool × Bool),
      tr = pre ++ step :: post → step.2 = true →
      ∀ p ∈ post, p = (false, false)) := by
  rcases hr : runReceiver inputs r st with - | ⟨res, tr2⟩
  · rw [hr] at hrun
    exact Option.noConfusion hrun
  · rw [hr] at hrun
    have htr2 : tr2 = tr := by injection hrun
    rw [← htr2]
    exact ⟨fun hdel => runReceiver_stable inputs r st res tr2 hInv hdel hr,
      fun pre post step htr hstep =>
        runReceiver_once_aux inputs r st res tr2 hInv hr pre post step htr hstep⟩

theorem talkStep_interacting (n : NpcTalk) (ev : GEvent) :
    (talkStep n ev).interacting = n.interacting := by
  unfold talkStep
  split_ifs <;> rfl

theorem talkFold_interacting (evs : List GEvent) (n : NpcTalk) :
    (evs.foldl talkStep n).interacting = n.interacting := by
  induction evs generalizing n with
  | nil => rfl
  | cons ev evs ih =>
      simp only [List.foldl_cons]
      rw [ih, talkStep_interacting]

/-- After TalkingNPC.update, interacting is exactly the rect overlap
computed this frame. -/
theorem talkUpdate_interacting (info : EventInfo) (pRect : Rect) (n : NpcTalk) :
    (talkUpdate info pRect n).interacting = n.rect.collide pRect := by
  have hcore : (talkUpdate info pRect n).interacting =
      (if n.rect.collide pRect then
        info.events.foldl talkStep { n with interacting := true }
      else { n with interacting := false, talking := false }).interacting := rfl
  rw [hcore]
  by_cases hc : n.rect.collide pRect = true
  · rw [if_pos hc, hc, talkFold_interacting]
  · rw [if_neg hc]
    rw [Bool.not_eq_true] at hc
    rw [hc]

/-- The check_finished_2 latch after the flag phase: it is set exactly
when it was already set or this update found the player interacting
with the quest ongoing. -/
theorem recPhase1_cf2 (info : EventInfo) (pRect : Rect) (r : ReceiverNpc)
    (st : Settings) :
    (recPhase1 info pRect r st).checkFinished2 =
      (r.checkFinished2 || ((talkUpdate info pRect r.talk).interacting && qoOf r st)) := by
  unfold recPhase1 recR3 recR2 recR1
  cases hA : (talkUpdate info pRect r.talk).interacting <;>
    cases hB : qoOf r st <;>
      cases hC : r.checkFinished2 <;>
        simp [hA, hB, hC, apply_ite]

/-- The C4/C10 witness quest receiver: one required item, already
delivered (C4) and duplicate-free (C10). -/
def wRect : Rect := ⟨0, 0, 16, 16⟩

/-- The TalkingNPC part of the witness receiver. -/
def wTalk : NpcTalk :=
  { rect := wRect, lines := ["Press E to talk", "hi"], lineIndex := 0,
    textSurf := "Press E to talk", interacting := false, talking := false, alpha := 0 }

/-- The witness receiver requiring the single item s. -/
def wReceiver : ReceiverNpc :=
  { talk := wTalk, items := ["s"], textIfItemLines := ["thanks"],
    questDone := false, questOngoing := false,
    checkFinished := false, checkFinished2 := false }

/-- The witness settings: the item s is already delivered. -/
def wSettings : Settings := ⟨[], ["s"], 0⟩

/-- Witness for C4: a one-frame session against the delivered state
satisfies the invariant, produces the inert trace, and the theorem
instantiated at that trace's single step confirms it is inert. -/
theorem claim4_witness :
    ((false : Bool), (false : Bool)) = (false, false) :=
  (claim4_deliver_once [(demoTalkInfo, wRect)] wReceiver wSettings [(false, false)]
    ⟨by decide, by decide, by decide, by decide⟩
    (by
      rw [runReceiver_cons,
        receiverUpdate_qo_false demoTalkInfo wRect wReceiver wSettings (by decide)]
      rfl)).1
    (by decide) (false, false) (by decide)

/-- C10 (amended): QuestReceiverNPC.update never raises from the
transfer provided the required-item list has no duplicate ids: the
transfer only runs under quest_ongoing, computed in the same call,
which guarantees each distinct required item one inventory occurrence
to remove. -/
theorem claim10_remove_safe (info : EventInfo) (pRect : Rect) (r : ReceiverNpc)
    (st : Settings) (hn : r.items.Nodup) :
    (receiverUpdate info pRect r st).isSome = true :=
  receiverUpdate_isSome info pRect r st hn

/-- Witness for the amended C10 at a concrete duplicate-free
receiver. -/
theorem claim10_witness :
    (receiverUpdate demoTalkInfo wRect wReceiver wSettings).isSome = true :=
  claim10_remove_safe demoTalkInfo wRect wReceiver wSettings (by decide)

/-- The duplicate-items receiver of the C10 counterexample: required
items list a, a (legal level data: the item property is split on
double newlines), check_finished_2 already latched, talking, and an
inventory holding a single a. -/
def dupTalk : NpcTalk :=
  { rect := wRect, lines := ["Press E to talk"], lineIndex := 0,
    textSurf := "Press E to talk", interacting := true, talking := true, alpha := 0 }

/-- The duplicate-items receiver. -/
def dupReceiver : ReceiverNpc :=
  { talk := dupTalk, items := ["a", "a"], textIfItemLines := ["thanks"],
    questDone := false, questOngoing := false,
    checkFinished := false, checkFinished2 := true }

/-- Inventory with one occurrence of a. -/
def dupSettings : Settings := ⟨["a"], [], 0⟩

/-- An eventless frame input. -/
def dupInfo : EventInfo := ⟨1, fun _ => false, []⟩

/-- C10: the claim that the remove calls always succeed fails when the
required-item list repeats an id: quest_ongoing only certifies one
inventory occurrence per distinct id, so the second remove of a raises
ValueError (modelled as none). -/
theorem claim10_counterexample :
    receiverUpdate dupInfo wRect dupReceiver dupSettings = none := by
  have hcol : dupTalk.rect.collide wRect = true := by
    norm_num [dupTalk, wRect, Rect.collide]
  have htalking : (talkUpdate dupInfo wRect dupReceiver.talk).talking = true := by
    rw [talkUpdate_talking]
    rw [show dupReceiver.talk = dupTalk from rfl, hcol]
    simp [dupTalk]
  have hcf2 : (recPhase1 dupInfo wRect dupReceiver dupSettings).checkFinished2 = true := by
    rw [recPhase1_cf2]
    rfl
  have hqo : qoOf dupReceiver dupSettings = true := by decide
  have htr : transferItems dupReceiver.items dupSettings = none := by decide
  unfold receiverUpdate
  rw [if_pos (by rw [hcf2, htalking, hqo]; rfl), htr]

/-! ## The exclusivity invariant and the ItemNPC double-grant (C5) -/

/-- The pickup item of the C5 failing input. -/
def bugItemNpc : ItemNpc := ⟨wRect, "a", false, 0⟩

/-- A frame carrying two E key-down events (a press-release-press
within one frame). -/
def bugInfoEE : EventInfo :=
  ⟨1, fun _ => false, [GEvent.keyDown PKey.e, GEvent.keyDown PKey.e]⟩

/-- The settings after that single ItemNPC.update frame from the empty
save. -/
def bugSt1 : Settings := (itemNpcUpdate bugInfoEE wRect bugItemNpc ⟨[], [], 0⟩).2

/-- The TalkingNPC part of the C5 receiver. -/
def bugTalk : NpcTalk :=
  { rect := wRect, lines := ["Press E to talk"], lineIndex := 0,
    textSurf := "Press E to talk", interacting := false, talking := false, alpha := 0 }

/-- A quest receiver requiring exactly the item a, fresh. -/
def bugReceiver : ReceiverNpc :=
  { talk := bugTalk, items := ["a"], textIfItemLines := ["thanks"],
    questDone := false, questOngoing := false,
    checkFinished := false, checkFinished2 := false }

/-- C5: the failing run.  ItemNPC.update's event loop appends the item
once per E key-down without re-checking picked_up, so one overlapping
frame with two E key-downs grants the item twice (inventory a, a);
the subsequent QuestReceiverNPC delivery then removes only one
occurrence while appending the id to items_delivered, leaving the item
in both lists — the exclusivity invariant the claim states is
violated. -/
theorem claim5_exclusivity_bug :
    bugSt1 = (⟨["a", "a"], [], 0⟩ : Settings) ∧
    (receiverUpdate demoTalkInfo wRect bugReceiver bugSt1).map
        (fun o => decide ("a" ∈ o.2.1.inventory) && decide ("a" ∈ o.2.1.delivered)) =
      some true := by
  have hcolI : wRect.collide bugItemNpc.rect = true := by
    norm_num [wRect, bugItemNpc, Rect.collide]
  have hcolI2 : wRect.collide wRect = true := by
    norm_num [wRect, Rect.collide]
  have hst1 : bugSt1 = (⟨["a", "a"], [], 0⟩ : Settings) := by
    simp [bugSt1, itemNpcUpdate, hcolI, hcolI2, bugInfoEE, isEDown, bugItemNpc]
  refine ⟨hst1, ?_⟩
  have hcolR : bugReceiver.talk.rect.collide wRect = true := by
    norm_num [bugReceiver, bugTalk, wRect, Rect.collide]
  have htalking : (talkUpdate demoTalkInfo wRect bugReceiver.talk).talking = true := by
    rw [talkUpdate_talking, hcolR]
    simp [bugReceiver, demoTalkInfo, isEDown]
  have hqo : qoOf bugReceiver bugSt1 = true := by
    rw [hst1]
    decide
  have hcf2 : (recPhase1 demoTalkInfo wRect bugReceiver bugSt1).checkFinished2 = true := by
    rw [recPhase1_cf2, talkUpdate_interacting, hcolR, hqo]
    rfl
  have htr : transferItems bugReceiver.items bugSt1 =
      some (⟨["a"], ["a"], 0⟩ : Settings) := by
    rw [hst1]
    decide
  unfold receiverUpdate
  rw [if_pos (by rw [hcf2, htalking, hqo]; rfl), htr]
  rfl

/-! ## TransitionStage (C7) -/

theorem runTransition_nil (s : TransState) : runTransition [] s = s := rfl

theorem runTransition_cons (step : Option GS × Bool) (steps : List (Option GS × Bool))
    (s : TransState) :
    runTransition (step :: steps) s =
      runTransition steps (transitionUpdate s step.1 step.2).1 := rfl

/-- An update whose marker is unset, or whose fade has not completed,
leaves next_state untouched and performs no effect. -/
theorem transitionUpdate_inert (s : TransState) (m : Option GS) (e : Bool)
    (h : m = none ∨ e = false) :
    (transitionUpdate s m e).1.nextState = s.nextState ∧
      (transitionUpdate s m e).2 = [] := by
  unfold transitionUpdate
  rcases h with hm | he
  · subst hm
    exact ⟨rfl, rfl⟩
  · cases m with
    | none => exact ⟨rfl, rfl⟩
    | some g =>
        subst he
        exact ⟨rfl, rfl⟩

/-- C7: (a) over any sequence of TransitionStage.update calls in which
no frame has both the _next_state marker set and the fade completion
event fired, the externally visible next_state stays None; and (b) in
any single update call that assigns next_state (the assignNext effect),
the marker was set, the fade event had fired, the assigned value is the
marker's, and the emitted effect list is exactly save, music stop,
music unload, assignment — the save write and the music stop precede
the assignment within that same call. -/
theorem claim7_transition_protocol :
    (∀ (steps : List (Option GS × Bool)) (s : TransState),
      s.nextState = none →
      (∀ st ∈ steps, st.1 = none ∨ st.2 = false) →
      (runTransition steps s).nextState = none) ∧
    (∀ (s : TransState) (m : Option GS) (e : Bool),
      TEffect.assignNext ∈ (transitionUpdate s m e).2 →
      (transitionUpdate s m e).2 =
          [TEffect.save, TEffect.musicStop, TEffect.musicUnload, TEffect.assignNext] ∧
        m ≠ none ∧ e = true ∧ (transitionUpdate s m e).1.nextState = m) := by
  constructor
  · intro steps
    induction steps with
    | nil => intro s h _; exact h
    | cons step steps ih =>
        intro s h hall
        rw [runTransition_cons]
        have hstep := transitionUpdate_inert s step.1 step.2
          (hall step (List.mem_cons_self step steps))
        refine ih _ ?_ (fun st hst => hall st (List.mem_cons_of_mem step hst))
        rw [hstep.1, h]
  · intro s m e hmem
    cases m with
    | none => exact absurd hmem (by simp [transitionUpdate])
    | some g =>
        cases e with
        | false => exact absurd hmem (by simp [transitionUpdate])
        | true => exact ⟨rfl, by simp, rfl, rfl⟩

/-- Demo step sequence for the C7 witness: a frame with the marker
unset, then a frame with the marker set but the fade not finished. -/
def demoSteps : List (Option GS × Bool) := [(none, true), (some GS.menu, false)]

/-- The freshly constructed transition state: next_state None, marker
None, fading in. -/
def demoTrans : TransState := ⟨none, none, true⟩

/-- Witness for C7 at concrete inputs: next_state stays None over the
demo steps, and the update that does assign emits the save and
music-stop effects before the assignment. -/
theorem claim7_witness :
    (runTransition demoSteps demoTrans).nextState = none ∧
      (transitionUpdate demoTrans (some GS.game) true).2 =
        [TEffect.save, TEffect.musicStop, TEffect.musicUnload, TEffect.assignNext] :=
  ⟨claim7_transition_protocol.1 demoSteps demoTrans rfl (by decide),
    (claim7_transition_protocol.2 demoTrans (some GS.game) true (by decide)).1⟩

end UBG
